import Mathlib

/-!
# Conversion Job Client (`static/script.js`)

A shallow embedding of the browser-side upload / poll / download client.
The DOM elements the script touches become fields of a record, each `async`
function is split at its `await` into the part that runs before the network
answer and the part that runs after it, and the browser's event loop becomes
a step function over explicit events.
-/

namespace Vectorizer

/-! ## `API_BASE` and `api` -/

/-- Whether the regular expression `\/+$` matches the whole of `cs`: one or more
slashes and then the end of the input. -/
def slashesToEnd : List Char → Bool
  | [] => false
  | c :: cs => c == '/' && (cs.isEmpty || slashesToEnd cs)

/-- The call `s.replace(/\/+$/, '')` on the characters of `s`: the leftmost position
from which the pattern matches is searched from the left, and the match, which
reaches the end of the input, is replaced by the empty string. -/
def replaceSlashesToEnd : List Char → List Char
  | [] => []
  | c :: cs => if slashesToEnd (c :: cs) then [] else c :: replaceSlashesToEnd cs

/-- The constant `API_BASE`: `(meta?.content || '').replace(/\/+$/, '')`, where
`content` is `none` when the page has no `meta[name="api-base"]` element. -/
def API_BASE (content : Option String) : String :=
  String.mk (replaceSlashesToEnd (content.getD "").data)

/-- The test `path.startsWith('/')`. -/
def startsWithSlash (path : String) : Bool :=
  match path.data with
  | c :: _ => c == '/'
  | [] => false

/-- The function `api(path)`, with the module constant `API_BASE` passed as `base`. -/
def api (base : String) (path : String) : String :=
  let path := if path = "" then "" else path
  let path := if !startsWithSlash path then "/" ++ path else path
  if base ≠ "" then base ++ path else path

/-- The spec's wording of the stripping: the string with all of its trailing
`/` characters removed. -/
def stripTrailingSlashes (o : String) : String :=
  String.mk (o.data.reverse.dropWhile (fun c => c == '/')).reverse

/-! ## The page -/

/-- A download anchor (`dl-svg`, `dl-png`, `dl-pdf`): whether its class list holds
`d-none`, and its `href`. -/
structure Link where
  hidden : Bool
  href : String
  deriving DecidableEq, Repr

/-- The elements the script reads and writes. `barWidth` is the text that the setter
of `bar.style.width` took last,
`barText` is `bar.textContent`, `log` holds the text of the items of the log
list in order, `downloadsHidden` says whether the downloads panel carries
`d-none`, `startDisabled` and `startText` are the start button's `disabled`
and `textContent`, `files` are the names in `fileInput.files`, and the four
optional controls hold their `value` when the element is on the page. -/
structure Dom where
  barWidth : String
  barText : String
  log : List String
  downloadsHidden : Bool
  dlSvg : Link
  dlPng : Link
  dlPdf : Link
  startDisabled : Bool
  startText : String
  files : List String
  qualitySel : Option String
  pngWidth : Option String
  pngDpi : Option String
  fillColor : Option String
  deriving DecidableEq, Repr

/-- A request handed to `fetch`. -/
inductive Request where
  | upload (url : String) (form : List (String × String))
  | progress (url : String)
  deriving DecidableEq, Repr

/-- The client: the module constant `API_BASE`, the page, and what the script has
asked of the browser: the alerts shown, the requests issued so far, the
number of upload and of progress requests not yet answered, and the delays of
the `setTimeout(poll, delay)` calls that have not fired yet. -/
structure World where
  base : String
  dom : Dom
  alerts : List String
  requests : List Request
  uploads : Nat
  polls : Nat
  timers : List Nat
  deriving DecidableEq, Repr

/-- A thrown value `e`, as far as `e.message || e` inside a template string sees
it: its `message` and its own string form. -/
structure JsError where
  message : String
  text : String
  deriving DecidableEq, Repr

/-- The text of `e.message || e` in a template string. -/
def JsError.describe (e : JsError) : String :=
  if e.message ≠ "" then e.message else e.text

/-- The `files` mapping of a progress response. -/
structure Files where
  svg : Option String
  png : Option String
  pdf : Option String
  deriving DecidableEq, Repr

/-- An integer as a JavaScript number holds it exactly: from
`Number.MIN_SAFE_INTEGER` to `Number.MAX_SAFE_INTEGER`. -/
abbrev SafeInt : Type :=
  { n : Int // -9007199254740991 ≤ n ∧ n ≤ 9007199254740991 }

/-- The string form of the number in `n + "%"`: the decimal digits, with a leading
`-` when it is negative. -/
def SafeInt.text (n : SafeInt) : String := toString n.val

/-- The JSON object answered by `/progress`. -/
structure Snapshot where
  percent : SafeInt
  logs : Option (List String)
  done : Bool
  files : Option Files
  deriving DecidableEq, Repr

/-- The value of `data.files && data.files.k` when it is truthy: the mapping is
there, the key is there, and the identifier is not the empty string. -/
def fileId (files : Option Files) (k : Files → Option String) : Option String :=
  match files with
  | none => none
  | some f =>
    match k f with
    | none => none
    | some id => if id ≠ "" then some id else none

/-- How the `fetch` of `/upload` ends: a response with a status, or a rejection. -/
inductive UploadResult where
  | response (status : Nat)
  | networkError (e : JsError)
  deriving DecidableEq, Repr

/-- How one cycle of `poll` ends: `res.json()` gives a snapshot, `fetch` rejects,
or `res.json()` rejects because the body is not JSON. -/
inductive PollRead where
  | ok (data : Snapshot)
  | networkError (e : JsError)
  | notJson (e : JsError)
  deriving DecidableEq, Repr

/-! ## The helpers -/

/-- The function `appendLog(text)`. -/
def appendLog (text : String) (d : Dom) : Dom :=
  { d with log := d.log ++ [text] }

/-- The function `resetUI()`. -/
def resetUI (d : Dom) : Dom :=
  { d with
    barWidth := "0%"
    barText := "0%"
    log := []
    downloadsHidden := true
    dlPng := { d.dlPng with hidden := true }
    dlPdf := { d.dlPdf with hidden := true } }

/-- The function `setBusy(busy)`. -/
def setBusy (busy : Bool) (d : Dom) : Dom :=
  { d with
    startDisabled := busy
    startText := if busy then "Processing…" else "Upload & Start" }

/-- The `FormData` built by the click handler for a first file `file`. -/
def uploadForm (d : Dom) (file : String) : List (String × String) :=
  [("file", file)]
    ++ (match d.qualitySel with | some v => [("quality", v)] | none => [])
    ++ (match d.pngWidth with | some v => [("png_width_px", v)] | none => [])
    ++ (match d.pngDpi with | some v => [("png_dpi", v)] | none => [])
    ++ (match d.fillColor with
        | some v => [("fill_color", if v ≠ "" then v else "#C59A52")]
        | none => [])

/-! ## `poll` -/

/-- The function `poll()` up to its first `await`: the progress request is issued. -/
def poll (w : World) : World :=
  { w with
    requests := w.requests ++ [Request.progress (api w.base "/progress")]
    polls := w.polls + 1 }

/-- The assignment `bar.style.width = n + "%"`. A width may not be negative: the
style setter takes the text when `n` is not negative and ignores the assignment
otherwise, so that the width declared before stays. -/
def setBarWidth (n : SafeInt) (d : Dom) : Dom :=
  if 0 ≤ n.val then { d with barWidth := n.text ++ "%" } else d

/-- The statements of `poll` that draw a snapshot: bar width and label, then the
log list emptied and refilled with `(data.logs || []).forEach(appendLog)`. -/
def render (data : Snapshot) (d : Dom) : Dom :=
  let d := setBarWidth data.percent d
  let d := { d with barText := data.percent.text ++ "%" }
  let d := { d with log := [] }
  (data.logs.getD []).foldl (fun d text => appendLog text d) d

/-- The body of `if (data.done)` before `setBusy(false)`: the panel is shown and
each link whose identifier is truthy gets its `href`; the raster and document
links are also shown. -/
def showDownloads (base : String) (files : Option Files) (d : Dom) : Dom :=
  let d := { d with downloadsHidden := false }
  let d := match fileId files Files.svg with
    | some id => { d with dlSvg := { d.dlSvg with href := api base ("/download/" ++ id) } }
    | none => d
  let d := match fileId files Files.png with
    | some id => { d with dlPng := { href := api base ("/download/" ++ id), hidden := false } }
    | none => d
  let d := match fileId files Files.pdf with
    | some id => { d with dlPdf := { href := api base ("/download/" ++ id), hidden := false } }
    | none => d
  d

/-- The function `poll()` after its `await`s, for each way the read can end. -/
def pollResume (r : PollRead) (w : World) : World :=
  match r with
  | PollRead.ok data =>
    let d := render data w.dom
    if data.done then
      { w with dom := setBusy false (showDownloads w.base data.files d) }
    else
      { w with dom := d, timers := w.timers ++ [500] }
  | PollRead.networkError e =>
    { w with
      dom := appendLog ("Progress error: " ++ e.describe) w.dom
      timers := w.timers ++ [800] }
  | PollRead.notJson e =>
    { w with
      dom := appendLog ("Progress error: " ++ e.describe) w.dom
      timers := w.timers ++ [800] }

/-! ## The click handler -/

/-- The click handler of the start button up to its `await`: without a file only the
alert; otherwise the interface is reset, the button is made busy and the
upload request is issued. -/
def onClick (w : World) : World :=
  match w.dom.files with
  | [] => { w with alerts := w.alerts ++ ["Please select a file"] }
  | file :: _ =>
    let d := setBusy true (resetUI w.dom)
    { w with
      dom := d
      requests := w.requests ++ [Request.upload (api w.base "/upload") (uploadForm d file)]
      uploads := w.uploads + 1 }

/-- The click handler after its `await`: on an `ok` response (status 200 to 299)
`poll()` is called; a response that is not `ok` throws
`Error("Upload failed: <status>")`, and that error or the rejection of `fetch`
is caught: one log line, and the button is released. -/
def uploadResume (r : UploadResult) (w : World) : World :=
  match r with
  | UploadResult.response status =>
    if 200 ≤ status ∧ status ≤ 299 then poll w
    else
      let e : JsError :=
        { message := "Upload failed: " ++ toString status
          text := "Error: Upload failed: " ++ toString status }
      { w with dom := setBusy false (appendLog ("Error: " ++ e.describe) w.dom) }
  | UploadResult.networkError e =>
    { w with dom := setBusy false (appendLog ("Error: " ++ e.describe) w.dom) }

/-! ## The event loop -/

/-- What can happen next on the page. -/
inductive Event where
  | click
  | selectFiles (files : List String)
  | setControls (quality width dpi color : String)
  | uploadResult (r : UploadResult)
  | pollResult (r : PollRead)
  | timerFire (delay : Nat)
  deriving DecidableEq, Repr

/-- One turn of the event loop. A click reaches the handler only while the button is
not disabled; the user may change the selected files and the values of the controls
that are on the page at any time; an answer needs a request in flight; a timer needs to be
pending. An event that cannot happen in `w` gives `none`. -/
def step (w : World) : Event → Option World
  | Event.click => if w.dom.startDisabled then none else some (onClick w)
  | Event.selectFiles files => some { w with dom := { w.dom with files := files } }
  | Event.setControls quality width dpi color =>
    some { w with dom := { w.dom with
      qualitySel := w.dom.qualitySel.map (fun _ => quality)
      pngWidth := w.dom.pngWidth.map (fun _ => width)
      pngDpi := w.dom.pngDpi.map (fun _ => dpi)
      fillColor := w.dom.fillColor.map (fun _ => color) } }
  | Event.uploadResult r =>
    if 0 < w.uploads then some (uploadResume r { w with uploads := w.uploads - 1 }) else none
  | Event.pollResult r =>
    if 0 < w.polls then some (pollResume r { w with polls := w.polls - 1 }) else none
  | Event.timerFire delay =>
    if delay ∈ w.timers then some (poll { w with timers := w.timers.erase delay }) else none

/-- A run: the events are taken in order. -/
def exec (w : World) : List Event → Option World
  | [] => some w
  | e :: es => (step w e).bind (fun w1 => exec w1 es)

/-- The client when the script has just been loaded on a page whose elements are `d`
and whose `api-base` meta content is `content`. -/
def load (content : Option String) (d : Dom) : World :=
  { base := API_BASE content
    dom := d
    alerts := []
    requests := []
    uploads := 0
    polls := 0
    timers := [] }

/-- The number of progress requests in flight or scheduled. -/
def World.pollsPending (w : World) : Nat := w.polls + w.timers.length

/-- The event is a successful read of a snapshot whose `done` is set. -/
def Event.isDoneRead : Event → Bool
  | Event.pollResult (PollRead.ok data) => data.done
  | _ => false

/-- The event is an upload that failed: a status outside 200 to 299, or a rejection. -/
def Event.isFailedUpload : Event → Bool
  | Event.uploadResult (UploadResult.response status) => !(decide (200 ≤ status ∧ status ≤ 299))
  | Event.uploadResult (UploadResult.networkError _) => true
  | _ => false

/-- The events of a poll loop that reads the snapshots one after the other: the first
read belongs to the request already in flight, each later one follows the
500 ms timer set by the read before it. -/
def readEvents : List Snapshot → List Event
  | [] => []
  | [data] => [Event.pollResult (PollRead.ok data)]
  | data :: next :: rest =>
    Event.pollResult (PollRead.ok data) :: Event.timerFire 500 :: readEvents (next :: rest)

/-- The job invariant: at most one request or timer of a job is outstanding, and
while one is, the button is busy and the downloads panel and the raster and
document links are hidden. -/
def JobInv (w : World) : Prop :=
  w.uploads + w.pollsPending ≤ 1
    ∧ (0 < w.uploads + w.pollsPending →
        w.dom.startDisabled = true ∧ w.dom.downloadsHidden = true
          ∧ w.dom.dlPng.hidden = true ∧ w.dom.dlPdf.hidden = true)

instance (w : World) : Decidable (JobInv w) := by
  unfold JobInv
  infer_instance

/-- A page as it may be served: nothing selected, the panel and the raster and
document links hidden, the four controls present. -/
def samplePage : Dom :=
  { barWidth := "0%"
    barText := "0%"
    log := []
    downloadsHidden := true
    dlSvg := { hidden := false, href := "#" }
    dlPng := { hidden := true, href := "#" }
    dlPdf := { hidden := true, href := "#" }
    startDisabled := false
    startText := "Upload & Start"
    files := []
    qualitySel := some "balanced"
    pngWidth := some "0"
    pngDpi := some "300"
    fillColor := some "" }

/-- The sample page with one file chosen. -/
def samplePageWithFile : Dom := { samplePage with files := ["logo.png"] }

/-- A thrown network error. -/
def sampleError : JsError := { message := "Failed to fetch", text := "TypeError: Failed to fetch" }

/-- A snapshot of a job that is half way. -/
def sampleRunning : Snapshot :=
  { percent := ⟨50, by decide⟩
    logs := some ["start", "tracing"]
    done := false
    files := none }

/-- A snapshot of a finished job that has a vector and a document output. -/
def sampleDone : Snapshot :=
  { percent := ⟨100, by decide⟩
    logs := some ["start", "tracing", "done"]
    done := true
    files := some { svg := some "a.svg", png := none, pdf := some "b.pdf" } }

/-- A snapshot of a finished job that reports no output file. -/
def sampleDoneNoFiles : Snapshot :=
  { percent := ⟨100, by decide⟩
    logs := some ["start", "failed"]
    done := true
    files := none }

/-- A snapshot that is not done and reports a percent below zero. -/
def sampleBelowZero : Snapshot :=
  { percent := ⟨-7, by decide⟩, logs := some ["start"], done := false, files := none }

/-- A done snapshot that reports a percent below zero. -/
def sampleBelowZeroDone : Snapshot :=
  { percent := ⟨-5, by decide⟩, logs := some ["start", "done"], done := true, files := none }

/-- The interface as the user sees it: the busy flag, the bar's fill and label, the
log items, and the visibility and target of the panel's links. -/
structure UiState where
  busy : Bool
  barWidth : String
  barText : String
  log : List String
  downloadsHidden : Bool
  dlSvg : Link
  dlPng : Link
  dlPdf : Link
  deriving DecidableEq, Repr

/-- The interface shown in a state of the client. -/
def World.ui (w : World) : UiState :=
  { busy := w.dom.startDisabled
    barWidth := w.dom.barWidth
    barText := w.dom.barText
    log := w.dom.log
    downloadsHidden := w.dom.downloadsHidden
    dlSvg := w.dom.dlSvg
    dlPng := w.dom.dlPng
    dlPdf := w.dom.dlPdf }

/-- The most recent snapshot read in a run, if any. -/
def lastSnapshot : List Event → Option Snapshot
  | [] => none
  | Event.pollResult (PollRead.ok data) :: es => (lastSnapshot es).orElse (fun _ => some data)
  | _ :: es => lastSnapshot es

/-- A job on the sample page that ends with the snapshot `data`: click, upload
accepted, one read. -/
def jobEvents (data : Snapshot) : List Event :=
  [Event.click, Event.uploadResult (UploadResult.response 200),
    Event.pollResult (PollRead.ok data)]

/-- The client freshly loaded on the sample page with a file chosen and a configured
origin that ends in a slash. -/
def sampleIdle : World := load (some "https://api.example.com/") samplePageWithFile

/-- The client after a click on `sampleIdle` and an accepted upload: the first
progress request is in flight. -/
def samplePolling : World :=
  uploadResume (UploadResult.response 200) { onClick sampleIdle with uploads := 0 }

/-- Events after a click during which the job goes on: the upload is accepted, a
read is not done, a read fails, and the user changes the inputs meanwhile. -/
def sampleBusyEvents : List Event :=
  [Event.uploadResult (UploadResult.response 200),
    Event.pollResult (PollRead.ok sampleRunning),
    Event.selectFiles [],
    Event.timerFire 500,
    Event.pollResult (PollRead.notJson sampleError),
    Event.setControls "high" "1024" "600" "#000000",
    Event.timerFire 800]

/-- The client after `samplePolling` has read `sampleRunning`. -/
def sampleAfterRead : World :=
  pollResume (PollRead.ok sampleRunning) { samplePolling with polls := 0 }

/-- The client after `sampleAfterRead` when the 500 ms timer has fired: the second
progress request is in flight and the log has two lines. -/
def sampleSecondPoll : World := poll { sampleAfterRead with timers := [] }

/-- Events after a read during which nothing is submitted and nothing is read: user
input, the timers, and a failed read. -/
def sampleQuietEvents : List Event :=
  [Event.selectFiles [],
    Event.timerFire 500,
    Event.pollResult (PollRead.notJson sampleError),
    Event.setControls "high" "1024" "600" "#000000",
    Event.timerFire 800]

/-- Events on the sample page with no file chosen: a click that only alerts, and
user input that ends with no file chosen. -/
def sampleIdleEvents : List Event :=
  [Event.click, Event.setControls "high" "1024" "600" "#000000", Event.selectFiles []]

/-- A run on the sample page in which a job that reads `sampleRunning` goes on to read
a percent below zero. -/
def belowZeroAfterRunning : List Event :=
  jobEvents sampleRunning
    ++ [Event.timerFire 500, Event.pollResult (PollRead.ok sampleBelowZero)]

/-- The event is a submission in `w`: a click on the enabled start button while a
file is selected. -/
def Event.submits (w : World) : Event → Bool
  | Event.click => !w.dom.startDisabled && !w.dom.files.isEmpty
  | _ => false

/-- The event is a successful read of a snapshot. -/
def Event.isRead : Event → Bool
  | Event.pollResult (PollRead.ok _) => true
  | _ => false

/-- Whether the run of the events from `w` has no submission in it. -/
def noSubmission : World → List Event → Bool
  | _, [] => true
  | w, e :: es =>
    !e.submits w && (match step w e with
      | some w1 => noSubmission w1 es
      | none => true)

/-- The log lines that the failed reads among the events add, in order. -/
def failureLines : List Event → List String
  | [] => []
  | Event.pollResult (PollRead.networkError e) :: es =>
    ("Progress error: " ++ e.describe) :: failureLines es
  | Event.pollResult (PollRead.notJson e) :: es =>
    ("Progress error: " ++ e.describe) :: failureLines es
  | _ :: es => failureLines es

/-- A run on the sample page in which a failed read follows a read of
`sampleRunning`. -/
def failedReadEvents : List Event :=
  [Event.click, Event.uploadResult (UploadResult.response 200),
    Event.pollResult (PollRead.ok sampleRunning), Event.timerFire 500,
    Event.pollResult (PollRead.networkError sampleError)]

/-! ## Properties of `api` -/

theorem slashesToEnd_iff (cs : List Char) :
    slashesToEnd cs = true ↔ cs ≠ [] ∧ ∀ c ∈ cs, c = '/' := by
  induction cs with
  | nil => simp [slashesToEnd]
  | cons c cs ih =>
    cases cs with
    | nil => simp [slashesToEnd]
    | cons d ds =>
      simp only [slashesToEnd, Bool.and_eq_true, Bool.or_eq_true, beq_iff_eq] at ih ⊢
      simp only [List.isEmpty_cons, Bool.false_eq_true, false_or] at ih ⊢
      rw [ih]
      simp

theorem dropWhile_append_all (q : Char → Bool) (l m : List Char) :
    (l ++ m).dropWhile q = if l.all q then m.dropWhile q else l.dropWhile q ++ m := by
  induction l with
  | nil => simp
  | cons a l ih =>
    by_cases ha : q a = true
    · simp [List.dropWhile_cons, ha, ih]
    · simp [List.dropWhile_cons, ha]

theorem replaceSlashesToEnd_eq (cs : List Char) :
    replaceSlashesToEnd cs = (cs.reverse.dropWhile (fun c => c == '/')).reverse := by
  induction cs with
  | nil => simp [replaceSlashesToEnd]
  | cons c cs ih =>
    rw [replaceSlashesToEnd, List.reverse_cons, dropWhile_append_all]
    by_cases h : slashesToEnd (c :: cs) = true
    · have h2 := (slashesToEnd_iff (c :: cs)).1 h
      have hall : (cs.reverse.all fun c => c == '/') = true := by
        simp only [List.all_eq_true, List.mem_reverse, beq_iff_eq]
        intro x hx
        exact h2.2 x (List.mem_cons_of_mem _ hx)
      have hc : c = '/' := h2.2 c (List.mem_cons_self _ _)
      rw [if_pos h, if_pos hall]
      simp [hc]
    · by_cases hall : (cs.reverse.all fun c => c == '/') = true
      · have hne : c ≠ '/' := by
          intro hc
          apply h
          rw [slashesToEnd_iff]
          refine ⟨by simp, ?_⟩
          intro x hx
          rcases List.mem_cons.1 hx with hx | hx
          · rw [hx, hc]
          · simp only [List.all_eq_true, List.mem_reverse, beq_iff_eq] at hall
            exact hall x hx
        have hnil : replaceSlashesToEnd cs = [] := by
          rw [ih]
          simp only [List.reverse_eq_nil_iff, List.dropWhile_eq_nil_iff]
          simpa using hall
        simp [h, hall, hne, hnil]
      · simp [h, hall, ih]

theorem API_BASE_eq (content : Option String) :
    API_BASE content = stripTrailingSlashes (content.getD "") := by
  simp [API_BASE, stripTrailingSlashes, replaceSlashesToEnd_eq]

theorem api_of_slash (base path : String) (hp : startsWithSlash path = true) :
    api base path = base ++ path := by
  have hne : path ≠ "" := by
    intro h
    rw [h] at hp
    simp [startsWithSlash] at hp
  have hempty : ("" : String) ++ path = path := by
    apply String.ext
    simp
  by_cases hb : base = ""
  · subst hb
    simp [api, hne, hp, hempty]
  · simp [api, hne, hp, hb]

/-- C1: for every configured origin `o` and every path `p` that begins with `/`, `api(p)`
is `o` without its trailing slashes followed by `p`; with no origin configured, or
when nothing is left of `o`, `api(p)` is `p` itself. -/
theorem api_strips_origin (o p : String) (hp : startsWithSlash p = true) :
    api (API_BASE (some o)) p = stripTrailingSlashes o ++ p
      ∧ api (API_BASE none) p = p
      ∧ (stripTrailingSlashes o = "" → api (API_BASE (some o)) p = p) := by
  have hnone : API_BASE none = "" := by
    rw [API_BASE_eq]
    rfl
  have hempty : ("" : String) ++ p = p := by
    apply String.ext
    simp
  refine ⟨?_, ?_, ?_⟩
  · rw [api_of_slash _ _ hp, API_BASE_eq]
    rfl
  · rw [api_of_slash _ _ hp, hnone, hempty]
  · intro h
    rw [api_of_slash _ _ hp, API_BASE_eq]
    show stripTrailingSlashes o ++ p = p
    rw [h, hempty]

/-- The examples of C1: origin `https://api.example.com` and path `/upload` give
`https://api.example.com/upload`, and no origin gives `/upload`. -/
theorem api_strips_origin_witness :
    startsWithSlash "/upload" = true
      ∧ api (API_BASE (some "https://api.example.com")) "/upload"
          = "https://api.example.com/upload"
      ∧ api (API_BASE none) "/upload" = "/upload"
      ∧ api (API_BASE (some "https://api.example.com///")) "/upload"
          = "https://api.example.com/upload" := by
  have h1 := api_strips_origin "https://api.example.com" "/upload" (by decide)
  have h2 := api_strips_origin "https://api.example.com///" "/upload" (by decide)
  refine ⟨by decide, ?_, h1.2.1, ?_⟩
  · rw [h1.1]
    decide
  · rw [h2.1]
    decide

/-! ## Single events -/

/-- C2: in every idle state with no file selected, the click handler only shows the
alert: no request is issued, no poll is started or scheduled, the page is left as it
was (so the interface is not reset), and the button stays enabled. -/
theorem click_without_file (w : World) (hidle : w.dom.startDisabled = false)
    (hfile : w.dom.files = []) :
    step w Event.click = some { w with alerts := w.alerts ++ ["Please select a file"] }
      ∧ ∀ w1, step w Event.click = some w1 →
          w1.requests = w.requests ∧ w1.uploads = w.uploads ∧ w1.polls = w.polls
            ∧ w1.timers = w.timers ∧ w1.dom = w.dom ∧ w1.dom.startDisabled = false := by
  have h : step w Event.click
      = some { w with alerts := w.alerts ++ ["Please select a file"] } := by
    simp [step, onClick, hidle, hfile]
  refine ⟨h, ?_⟩
  intro w1 h1
  rw [h] at h1
  cases h1
  exact ⟨rfl, rfl, rfl, rfl, rfl, hidle⟩

/-- C6: in every state with a progress request in flight, a read that fails (a
rejected `fetch` or a body that is not JSON) adds exactly one line at the end of the
log and keeps the lines that were there, schedules exactly one poll after 800 ms and
issues no request, and leaves the busy flag and the visibility of the downloads
panel and of each download link as they were. -/
theorem failed_poll_read (w : World) (r : PollRead) (e : JsError)
    (hr : r = PollRead.networkError e ∨ r = PollRead.notJson e) (hpoll : 0 < w.polls) :
    ∃ w1, step w (Event.pollResult r) = some w1
      ∧ w1.dom.log = w.dom.log ++ ["Progress error: " ++ e.describe]
      ∧ w1.timers = w.timers ++ [800]
      ∧ w1.polls = w.polls - 1
      ∧ w1.requests = w.requests
      ∧ w1.dom.startDisabled = w.dom.startDisabled
      ∧ w1.dom.downloadsHidden = w.dom.downloadsHidden
      ∧ w1.dom.dlSvg.hidden = w.dom.dlSvg.hidden
      ∧ w1.dom.dlPng.hidden = w.dom.dlPng.hidden
      ∧ w1.dom.dlPdf.hidden = w.dom.dlPdf.hidden := by
  refine ⟨pollResume r { w with polls := w.polls - 1 }, by simp [step, hpoll], ?_⟩
  rcases hr with hr | hr <;> subst hr <;>
    exact ⟨rfl, rfl, rfl, rfl, rfl, rfl, rfl, rfl, rfl⟩

/-- C7: when a file is selected and the upload fails (a status outside 200 to 299, or
a rejected `fetch`), the click resets the log to empty and the failure adds exactly
one error line to it, clears the busy flag, and starts no poll: no progress request
is issued or scheduled, and the only request of the job is the one upload. -/
theorem failed_upload (w : World) (file : String) (files : List String) (r : UploadResult)
    (hidle : w.dom.startDisabled = false) (hfile : w.dom.files = file :: files)
    (hr : (Event.uploadResult r).isFailedUpload = true) :
    ∃ w1 w2 msg,
      step w Event.click = some w1
        ∧ step w1 (Event.uploadResult r) = some w2
        ∧ w1.dom.log = [] ∧ w1.dom.startDisabled = true
        ∧ w2.dom.log = ["Error: " ++ msg]
        ∧ w2.dom.startDisabled = false
        ∧ w2.polls = w.polls ∧ w2.timers = w.timers ∧ w2.uploads = w.uploads
        ∧ w2.requests = w.requests
            ++ [Request.upload (api w.base "/upload") (uploadForm w1.dom file)] := by
  have h1 : step w Event.click = some (onClick w) := by simp [step, hidle]
  have hup : 0 < (onClick w).uploads := by simp [onClick, hfile]
  have h2 : step (onClick w) (Event.uploadResult r)
      = some (uploadResume r { onClick w with uploads := (onClick w).uploads - 1 }) := by
    simp [step, hup]
  cases r with
  | response status =>
    have hs : ¬ (200 ≤ status ∧ status ≤ 299) := by
      intro h
      simp [Event.isFailedUpload, h] at hr
    have hmsg : "Upload failed: " ++ toString status ≠ "" := by
      intro h
      have hlen := congrArg String.length h
      simp only [String.length_append] at hlen
      have h15 : "Upload failed: ".length = 15 := by decide
      rw [h15] at hlen
      have h0 : ("" : String).length = 0 := rfl
      omega
    refine ⟨_, _, "Upload failed: " ++ toString status, h1, h2, ?_, ?_, ?_, ?_, ?_, ?_, ?_, ?_⟩
    all_goals simp [onClick, hfile, uploadResume, hs, setBusy, resetUI, appendLog,
      JsError.describe, hmsg]
  | networkError e =>
    refine ⟨_, _, e.describe, h1, h2, ?_, ?_, ?_, ?_, ?_, ?_, ?_, ?_⟩
    all_goals simp [onClick, hfile, uploadResume, setBusy, resetUI, appendLog]

theorem foldl_appendLog (l : List String) (d : Dom) :
    l.foldl (fun d text => appendLog text d) d = { d with log := d.log ++ l } := by
  induction l generalizing d with
  | nil => simp
  | cons a l ih =>
    rw [List.foldl_cons, ih]
    simp [appendLog]

theorem render_eq (data : Snapshot) (d : Dom) :
    render data d = { d with
      barWidth := if 0 ≤ data.percent.val then data.percent.text ++ "%" else d.barWidth
      barText := data.percent.text ++ "%"
      log := data.logs.getD [] } := by
  simp only [render, setBarWidth, foldl_appendLog]
  split <;> simp

theorem step_pollResult (w : World) (r : PollRead) (hpoll : 0 < w.polls) :
    step w (Event.pollResult r) = some (pollResume r { w with polls := w.polls - 1 }) := by
  simp [step, hpoll]

theorem pollsPending_of_step (w w1 : World) (e : Event) (h : step w e = some w1)
    (hdone : e.isDoneRead = false) : w.pollsPending ≤ w1.pollsPending := by
  cases e with
  | click =>
    by_cases hb : w.dom.startDisabled = true
    · simp [step, hb] at h
    · simp only [step, hb] at h
      cases h
      simp only [onClick, World.pollsPending]
      split <;> simp
  | selectFiles files =>
    simp only [step] at h
    cases h
    simp [World.pollsPending]
  | setControls q x y c =>
    simp only [step] at h
    cases h
    simp [World.pollsPending]
  | uploadResult r =>
    by_cases hu : 0 < w.uploads
    · simp only [step, hu] at h
      cases h
      cases r with
      | response status =>
        simp only [uploadResume, World.pollsPending, poll]
        split <;> simp
      | networkError e => simp [uploadResume, World.pollsPending]
    · simp [step, hu] at h
  | pollResult r =>
    by_cases hp : 0 < w.polls
    · rw [step_pollResult w r hp] at h
      cases h
      cases r with
      | ok data =>
        have hd : data.done = false := by simpa [Event.isDoneRead] using hdone
        simp only [pollResume, hd, World.pollsPending]
        simp
        omega
      | networkError e =>
        simp only [pollResume, World.pollsPending]
        simp
        omega
      | notJson e =>
        simp only [pollResume, World.pollsPending]
        simp
        omega
    · simp [step, hp] at h
  | timerFire delay =>
    by_cases hm : delay ∈ w.timers
    · simp only [step, hm] at h
      cases h
      have hlen := List.length_erase_of_mem hm
      have hpos : 0 < w.timers.length := List.length_pos_of_mem hm
      simp only [poll, World.pollsPending]
      omega
    · simp [step, hm] at h

/-- C8: a successful read with `done` not set schedules exactly one poll after 500 ms,
issues no request and leaves the busy flag as it was; with `done` set it clears the
busy flag and schedules nothing. No other event stops the poll loop: whenever a step
takes a state with a poll in flight or scheduled to a state with none, that step is a
successful read of a done snapshot. -/
theorem successful_poll_read (w : World) (data : Snapshot) (hpoll : 0 < w.polls) :
    (∃ w1, step w (Event.pollResult (PollRead.ok data)) = some w1
      ∧ w1.polls = w.polls - 1 ∧ w1.requests = w.requests
      ∧ (data.done = false →
          w1.timers = w.timers ++ [500] ∧ w1.dom.startDisabled = w.dom.startDisabled)
      ∧ (data.done = true → w1.timers = w.timers ∧ w1.dom.startDisabled = false))
    ∧ ∀ (w0 w2 : World) (e : Event), step w0 e = some w2 →
        0 < w0.pollsPending → w2.pollsPending = 0 → e.isDoneRead = true := by
  refine ⟨⟨_, step_pollResult w _ hpoll, ?_, ?_, ?_, ?_⟩, ?_⟩
  · simp only [pollResume]
    split <;> rfl
  · simp only [pollResume]
    split <;> rfl
  · intro hd
    simp [pollResume, hd, render_eq]
  · intro hd
    simp [pollResume, hd, setBusy]
  · intro w0 w2 e hstep hpos hzero
    by_contra hne
    have hle := pollsPending_of_step w0 w2 e hstep (by simpa using hne)
    omega

/-! ## Runs -/

theorem exec_cons (w : World) (e : Event) (es : List Event) (w2 : World)
    (h : exec w (e :: es) = some w2) : ∃ w1, step w e = some w1 ∧ exec w1 es = some w2 := by
  simp only [exec] at h
  cases hs : step w e with
  | none => simp [hs] at h
  | some w1 =>
    rw [hs] at h
    exact ⟨w1, rfl, h⟩

theorem exec_append (w : World) (es fs : List Event) :
    exec w (es ++ fs) = (exec w es).bind (fun w1 => exec w1 fs) := by
  induction es generalizing w with
  | nil => simp [exec]
  | cons e es ih =>
    simp only [List.cons_append, exec]
    cases step w e with
    | none => simp
    | some w1 => simp [ih]

theorem step_keeps_busy (w w1 : World) (e : Event) (h : step w e = some w1)
    (hbusy : w.dom.startDisabled = true) (hdone : e.isDoneRead = false)
    (hfail : e.isFailedUpload = false) : w1.dom.startDisabled = true := by
  cases e with
  | click => simp [step, hbusy] at h
  | selectFiles files =>
    simp only [step] at h
    cases h
    exact hbusy
  | setControls q x y c =>
    simp only [step] at h
    cases h
    exact hbusy
  | uploadResult r =>
    by_cases hu : 0 < w.uploads
    · simp only [step, hu] at h
      cases h
      cases r with
      | response status =>
        have hs : 200 ≤ status ∧ status ≤ 299 := by
          simpa [Event.isFailedUpload] using hfail
        simpa [uploadResume, hs, poll] using hbusy
      | networkError e => simp [Event.isFailedUpload] at hfail
    · simp [step, hu] at h
  | pollResult r =>
    by_cases hp : 0 < w.polls
    · rw [step_pollResult w r hp] at h
      cases h
      cases r with
      | ok data =>
        have hd : data.done = false := by simpa [Event.isDoneRead] using hdone
        simpa [pollResume, hd, render_eq] using hbusy
      | networkError e => simpa [pollResume, appendLog] using hbusy
      | notJson e => simpa [pollResume, appendLog] using hbusy
    · simp [step, hp] at h
  | timerFire delay =>
    by_cases hm : delay ∈ w.timers
    · simp only [step, hm] at h
      cases h
      simpa [poll] using hbusy
    · simp [step, hm] at h

theorem exec_keeps_busy (evs : List Event) (w w1 : World) (h : exec w evs = some w1)
    (hbusy : w.dom.startDisabled = true)
    (hev : ∀ e ∈ evs, e.isDoneRead = false ∧ e.isFailedUpload = false) :
    w1.dom.startDisabled = true := by
  induction evs generalizing w with
  | nil =>
    simp only [exec] at h
    cases h
    exact hbusy
  | cons e es ih =>
    obtain ⟨w2, h1, h2⟩ := exec_cons w e es w1 h
    have he := hev e (List.mem_cons_self _ _)
    exact ih w2 h2 (step_keeps_busy w w2 e h1 hbusy he.1 he.2)
      (fun x hx => hev x (List.mem_cons_of_mem _ hx))

/-- C3: in every run that starts with a click while a file is selected, the busy flag
is set in every state from the click on, as long as no upload has failed and no read
has given a done snapshot: the upload answered with a 2xx status, successful reads
that are not done, failed reads, timers and user input all leave it set. -/
theorem busy_until_done (w w1 : World) (file : String) (files : List String)
    (evs : List Event) (hidle : w.dom.startDisabled = false)
    (hfile : w.dom.files = file :: files)
    (hev : ∀ e ∈ evs, e.isDoneRead = false ∧ e.isFailedUpload = false)
    (hrun : exec w (Event.click :: evs) = some w1) :
    w1.dom.startDisabled = true := by
  obtain ⟨w2, h1, h2⟩ := exec_cons w Event.click evs w1 hrun
  have hw2 : w2 = onClick w := by
    simp [step, hidle] at h1
    exact h1.symm
  have hb : w2.dom.startDisabled = true := by
    rw [hw2]
    simp [onClick, hfile, setBusy]
  exact exec_keeps_busy evs w2 w1 h2 hb hev

theorem step_jobInv (w w1 : World) (e : Event) (h : step w e = some w1) (hinv : JobInv w) :
    JobInv w1 := by
  obtain ⟨hle, himp⟩ := hinv
  simp only [World.pollsPending] at hle himp
  cases e with
  | click =>
    by_cases hb : w.dom.startDisabled = true
    · simp [step, hb] at h
    · have hzero : w.uploads + (w.polls + w.timers.length) = 0 := by
        by_contra hne
        exact hb (himp (Nat.pos_of_ne_zero hne)).1
      simp only [step, hb] at h
      cases h
      cases hf : w.dom.files with
      | nil =>
        simp only [onClick, hf, JobInv, World.pollsPending]
        exact ⟨hle, himp⟩
      | cons file files =>
        simp only [onClick, hf, JobInv, World.pollsPending, setBusy, resetUI]
        refine ⟨by omega, fun _ => by simp⟩
  | selectFiles files =>
    simp only [step] at h
    cases h
    exact ⟨hle, himp⟩
  | setControls q x y c =>
    simp only [step] at h
    cases h
    exact ⟨hle, himp⟩
  | uploadResult r =>
    by_cases hu : 0 < w.uploads
    · simp only [step, hu] at h
      cases h
      have hall := himp (by omega)
      cases r with
      | response status =>
        by_cases hs : 200 ≤ status ∧ status ≤ 299
        · simp only [uploadResume, hs, poll, JobInv, World.pollsPending]
          refine ⟨by first | omega | (simp; omega), fun _ => hall⟩
        · simp only [uploadResume, hs, JobInv, World.pollsPending]
          refine ⟨by first | omega | (simp; omega), fun hpos => ?_⟩
          simp at hpos
          omega
      | networkError e =>
        simp only [uploadResume, JobInv, World.pollsPending]
        refine ⟨by omega, fun hpos => ?_⟩
        simp at hpos
        omega
    · simp [step, hu] at h
  | pollResult r =>
    by_cases hp : 0 < w.polls
    · rw [step_pollResult w r hp] at h
      cases h
      have hall := himp (by omega)
      have htl : w.timers.length = 0 := by omega
      cases r with
      | ok data =>
        by_cases hd : data.done = true
        · simp only [pollResume, hd, JobInv, World.pollsPending]
          refine ⟨by first | omega | (simp; omega), fun hpos => ?_⟩
          simp at hpos
          omega
        · simp only [pollResume, hd, JobInv, World.pollsPending, render_eq]
          refine ⟨by first | omega | (simp; omega), fun _ => hall⟩
      | networkError e =>
        simp only [pollResume, JobInv, World.pollsPending, appendLog]
        refine ⟨by first | omega | (simp; omega), fun _ => hall⟩
      | notJson e =>
        simp only [pollResume, JobInv, World.pollsPending, appendLog]
        refine ⟨by first | omega | (simp; omega), fun _ => hall⟩
    · simp [step, hp] at h
  | timerFire delay =>
    by_cases hm : delay ∈ w.timers
    · simp only [step, hm] at h
      cases h
      have hlen := List.length_erase_of_mem hm
      have hpos : 0 < w.timers.length := List.length_pos_of_mem hm
      have hall := himp (by omega)
      simp only [poll, JobInv, World.pollsPending]
      refine ⟨by omega, fun _ => hall⟩
    · simp [step, hm] at h

theorem exec_jobInv (evs : List Event) (w w1 : World) (h : exec w evs = some w1)
    (hinv : JobInv w) : JobInv w1 := by
  induction evs generalizing w with
  | nil =>
    simp only [exec] at h
    cases h
    exact hinv
  | cons e es ih =>
    obtain ⟨w2, h1, h2⟩ := exec_cons w e es w1 h
    exact ih w2 h2 (step_jobInv w w2 e h1 hinv)

theorem load_jobInv (content : Option String) (page : Dom) : JobInv (load content page) := by
  simp [JobInv, load, World.pollsPending]

/-- C9: in every state reached from a freshly loaded page by any sequence of events
(a click being possible only while the button is not disabled), at most one poll is
in flight or scheduled, and whenever one is, the busy flag is set. -/
theorem single_poll_chain (content : Option String) (page : Dom) (evs : List Event)
    (w : World) (hrun : exec (load content page) evs = some w) :
    w.pollsPending ≤ 1 ∧ (0 < w.pollsPending → w.dom.startDisabled = true) := by
  have hinv := exec_jobInv evs _ w hrun (load_jobInv content page)
  obtain ⟨hle, himp⟩ := hinv
  exact ⟨by omega, fun hpos => (himp (by omega)).1⟩

/-! ## Rendering of snapshots -/

theorem showDownloads_bar (base : String) (files : Option Files) (d : Dom) :
    (showDownloads base files d).barWidth = d.barWidth
      ∧ (showDownloads base files d).barText = d.barText
      ∧ (showDownloads base files d).log = d.log := by
  simp only [showDownloads]
  split <;> split <;> split <;> exact ⟨rfl, rfl, rfl⟩

theorem pollResume_ok_render (w : World) (data : Snapshot) :
    (0 ≤ data.percent.val →
        (pollResume (PollRead.ok data) w).dom.barWidth = data.percent.text ++ "%")
      ∧ (pollResume (PollRead.ok data) w).dom.barText = data.percent.text ++ "%"
      ∧ (pollResume (PollRead.ok data) w).dom.log = data.logs.getD [] := by
  by_cases hd : data.done = true
  · have h := showDownloads_bar w.base data.files (render data w.dom)
    simp only [pollResume, hd, if_true, setBusy]
    rw [render_eq] at h ⊢
    refine ⟨fun hp => ?_, h.2⟩
    rw [h.1]
    simp [hp]
  · refine ⟨fun hp => ?_, ?_, ?_⟩ <;> simp [pollResume, hd, render_eq]
    exact fun hneg => absurd hp (not_le.2 hneg)

theorem readEvents_cons (data : Snapshot) (l : List Snapshot) (last : Snapshot) :
    readEvents (data :: (l ++ [last]))
      = Event.pollResult (PollRead.ok data) :: Event.timerFire 500
          :: readEvents (l ++ [last]) := by
  cases l with
  | nil => rfl
  | cons x xs => rfl

theorem exec_readEvents (earlier : List Snapshot) (last : Snapshot) (w : World)
    (hpoll : 0 < w.polls) (hearlier : ∀ data ∈ earlier, data.done = false) :
    ∃ w0 : World, 0 < w0.polls ∧ exec w (readEvents (earlier ++ [last]))
      = some (pollResume (PollRead.ok last) { w0 with polls := w0.polls - 1 }) := by
  induction earlier generalizing w with
  | nil =>
    refine ⟨w, hpoll, ?_⟩
    simp [readEvents, exec, step_pollResult w _ hpoll]
  | cons data l ih =>
    have hd : data.done = false := hearlier data (List.mem_cons_self _ _)
    have hmem : 500 ∈ w.timers ++ [500] := by simp
    obtain ⟨w0, h0, hrun⟩ := ih
      (poll { pollResume (PollRead.ok data) { w with polls := w.polls - 1 } with
        timers := (w.timers ++ [500]).erase 500 })
      (by simp [poll])
      (fun x hx => hearlier x (List.mem_cons_of_mem _ hx))
    refine ⟨w0, h0, ?_⟩
    rw [List.cons_append, readEvents_cons, exec, step_pollResult w _ hpoll, Option.some_bind,
      exec]
    have hstep : step (pollResume (PollRead.ok data) { w with polls := w.polls - 1 })
        (Event.timerFire 500)
        = some (poll { pollResume (PollRead.ok data) { w with polls := w.polls - 1 } with
            timers := (w.timers ++ [500]).erase 500 }) := by
      simp [step, pollResume, hd]
    rw [hstep, Option.some_bind]
    exact hrun

/-- C4, as the code has it: for every sequence of successfully read snapshots that
ends with `last`, read by one poll loop (each snapshot before `last` has `done`
unset, so the loop goes on to the next), the run exists and after it the bar's label
is `last`'s percent followed by `%`, the bar's width is so too when that percent is
not negative, and the log items are exactly `last`'s logs in order; the same holds
when `poll` draws any sequence of snapshots one after the other. The percent values
need not be non-decreasing. -/
theorem final_render (w : World) (earlier : List Snapshot) (last : Snapshot) :
    (0 < w.polls → (∀ data ∈ earlier, data.done = false) →
      ∃ w1, exec w (readEvents (earlier ++ [last])) = some w1
        ∧ (0 ≤ last.percent.val → w1.dom.barWidth = last.percent.text ++ "%")
        ∧ w1.dom.barText = last.percent.text ++ "%"
        ∧ w1.dom.log = last.logs.getD [])
    ∧ (0 ≤ last.percent.val →
        ((earlier ++ [last]).foldl
          (fun w data => pollResume (PollRead.ok data) w) w).dom.barWidth
          = last.percent.text ++ "%")
    ∧ ((earlier ++ [last]).foldl (fun w data => pollResume (PollRead.ok data) w) w).dom.barText
        = last.percent.text ++ "%"
    ∧ ((earlier ++ [last]).foldl (fun w data => pollResume (PollRead.ok data) w) w).dom.log
        = last.logs.getD [] := by
  refine ⟨?_, ?_⟩
  · intro hpoll hearlier
    obtain ⟨w0, _, hrun⟩ := exec_readEvents earlier last w hpoll hearlier
    exact ⟨_, hrun, pollResume_ok_render _ last⟩
  · rw [List.foldl_append]
    exact pollResume_ok_render _ last

/-! ## Completion -/

theorem showDownloads_hidden (base : String) (files : Option Files) (d : Dom) :
    (showDownloads base files d).downloadsHidden = false
      ∧ (showDownloads base files d).dlSvg.hidden = d.dlSvg.hidden
      ∧ (showDownloads base files d).dlPng.hidden
          = (!(fileId files Files.png).isSome && d.dlPng.hidden)
      ∧ (showDownloads base files d).dlPdf.hidden
          = (!(fileId files Files.pdf).isSome && d.dlPdf.hidden) := by
  simp only [showDownloads]
  split <;> split <;> split <;> simp_all

theorem showDownloads_href (base : String) (files : Option Files) (d : Dom) :
    (∀ id, fileId files Files.svg = some id →
        (showDownloads base files d).dlSvg.href = api base ("/download/" ++ id))
      ∧ (∀ id, fileId files Files.png = some id →
        (showDownloads base files d).dlPng.href = api base ("/download/" ++ id))
      ∧ (∀ id, fileId files Files.pdf = some id →
        (showDownloads base files d).dlPdf.href = api base ("/download/" ++ id)) := by
  simp only [showDownloads]
  split <;> split <;> split <;> simp_all

theorem step_fixed (w w1 : World) (e : Event) (h : step w e = some w1) :
    w1.base = w.base ∧ w1.dom.dlSvg.hidden = w.dom.dlSvg.hidden := by
  cases e with
  | click =>
    by_cases hb : w.dom.startDisabled = true
    · simp [step, hb] at h
    · simp only [step, hb] at h
      cases h
      simp only [onClick]
      split <;> exact ⟨rfl, rfl⟩
  | selectFiles files =>
    simp only [step] at h
    cases h
    exact ⟨rfl, rfl⟩
  | setControls q x y c =>
    simp only [step] at h
    cases h
    exact ⟨rfl, rfl⟩
  | uploadResult r =>
    by_cases hu : 0 < w.uploads
    · simp only [step, hu] at h
      cases h
      cases r with
      | response status =>
        simp only [uploadResume]
        split <;> exact ⟨rfl, rfl⟩
      | networkError e => exact ⟨rfl, rfl⟩
    · simp [step, hu] at h
  | pollResult r =>
    by_cases hp : 0 < w.polls
    · rw [step_pollResult w r hp] at h
      cases h
      cases r with
      | ok data =>
        simp only [pollResume]
        split
        · refine ⟨rfl, ?_⟩
          simp only [setBusy]
          rw [(showDownloads_hidden _ _ _).2.1, render_eq]
        · refine ⟨rfl, ?_⟩
          simp only [render_eq]
      | networkError e => exact ⟨rfl, rfl⟩
      | notJson e => exact ⟨rfl, rfl⟩
    · simp [step, hp] at h
  | timerFire delay =>
    by_cases hm : delay ∈ w.timers
    · simp only [step, hm] at h
      cases h
      exact ⟨rfl, rfl⟩
    · simp [step, hm] at h

theorem exec_fixed (evs : List Event) (w w1 : World) (h : exec w evs = some w1) :
    w1.base = w.base ∧ w1.dom.dlSvg.hidden = w.dom.dlSvg.hidden := by
  induction evs generalizing w with
  | nil =>
    simp only [exec] at h
    cases h
    exact ⟨rfl, rfl⟩
  | cons e es ih =>
    obtain ⟨w2, h1, h2⟩ := exec_cons w e es w1 h
    have ha := step_fixed w w2 e h1
    have hb := ih w2 h2
    exact ⟨hb.1.trans ha.1, hb.2.trans ha.2⟩

/-- What a successful read leaves on a page reached from a fresh load: everything but
the width for a negative percent and the targets of the links whose kind the snapshot
does not name is fixed by the snapshot, the configured origin and the served
visibility of the vector link. -/
theorem read_determines_ui (content : Option String) (page : Dom) (evs : List Event)
    (w w1 : World) (data : Snapshot) (hrun : exec (load content page) evs = some w)
    (hstep : step w (Event.pollResult (PollRead.ok data)) = some w1) :
    w1.uploads = 0
      ∧ w1.dom.startDisabled = !data.done
      ∧ (0 ≤ data.percent.val → w1.dom.barWidth = data.percent.text ++ "%")
      ∧ w1.dom.barText = data.percent.text ++ "%"
      ∧ w1.dom.log = data.logs.getD []
      ∧ w1.dom.downloadsHidden = !data.done
      ∧ w1.dom.dlSvg.hidden = page.dlSvg.hidden
      ∧ w1.dom.dlPng.hidden = !(data.done && (fileId data.files Files.png).isSome)
      ∧ w1.dom.dlPdf.hidden = !(data.done && (fileId data.files Files.pdf).isSome)
      ∧ (data.done = true → ∀ id, fileId data.files Files.svg = some id →
          w1.dom.dlSvg.href = api (API_BASE content) ("/download/" ++ id))
      ∧ (data.done = true → ∀ id, fileId data.files Files.png = some id →
          w1.dom.dlPng.href = api (API_BASE content) ("/download/" ++ id))
      ∧ (data.done = true → ∀ id, fileId data.files Files.pdf = some id →
          w1.dom.dlPdf.href = api (API_BASE content) ("/download/" ++ id)) := by
  have hp : 0 < w.polls := by
    by_contra hp
    simp [step, hp] at hstep
  have hinv := exec_jobInv evs _ w hrun (load_jobInv content page)
  have hall := hinv.2 (by simp only [World.pollsPending]; omega)
  have hup : w.uploads = 0 := by
    have hle := hinv.1
    simp only [World.pollsPending] at hle
    omega
  have hfix := exec_fixed evs _ w hrun
  have hbase : w.base = API_BASE content := hfix.1
  have hsvg : w.dom.dlSvg.hidden = page.dlSvg.hidden := hfix.2
  rw [step_pollResult w _ hp] at hstep
  cases hstep
  have hr := pollResume_ok_render { w with polls := w.polls - 1 } data
  by_cases hd : data.done = true
  · have hh := showDownloads_hidden w.base data.files (render data w.dom)
    have hf := showDownloads_href w.base data.files (render data w.dom)
    simp only [render_eq] at hh hf
    refine ⟨?_, ?_, hr.1, hr.2.1, hr.2.2, ?_⟩
    · simpa [pollResume, hd] using hup
    · simp [pollResume, hd, setBusy]
    simp only [pollResume, hd, if_true, setBusy, render_eq, Bool.not_true, Bool.true_and]
    rw [← hbase]
    refine ⟨hh.1, ?_, ?_, ?_, fun _ => hf.1, fun _ => hf.2.1, fun _ => hf.2.2⟩
    · rw [hh.2.1, hsvg]
    · rw [hh.2.2.1, hall.2.2.1]
      simp
    · rw [hh.2.2.2, hall.2.2.2]
      simp
  · have hd2 : data.done = false := by simpa using hd
    refine ⟨?_, ?_, hr.1, hr.2.1, hr.2.2, ?_⟩
    · simpa [pollResume, hd2] using hup
    · simpa [pollResume, hd2, render_eq] using hall.1
    simp only [pollResume, hd2, render_eq, Bool.false_eq_true, if_false, Bool.not_false,
      Bool.false_and]
    exact ⟨hall.2.1, hsvg, hall.2.2.1, hall.2.2.2, fun h => by simp at h,
      fun h => by simp at h, fun h => by simp at h⟩

/-- C5: on a page that serves the vector link without the hidden class, for a done
snapshot read in a run from a fresh load whose `files` has the non-empty `svg` and
`pdf` identifiers `a` and `b` and no `png` key, the read shows the downloads panel, sets the
targets of the vector and document links to `api('/download/' + a)` and
`api('/download/' + b)`, leaves the vector link shown and shows the document link, and
the raster link stays hidden. -/
theorem completion_links (content : Option String) (page : Dom) (evs : List Event)
    (w : World) (data : Snapshot) (a b : String)
    (hpage : page.dlSvg.hidden = false)
    (hrun : exec (load content page) evs = some w) (hpoll : 0 < w.polls)
    (hdone : data.done = true)
    (hfiles : data.files = some { svg := some a, png := none, pdf := some b })
    (ha : a ≠ "") (hb : b ≠ "") :
    ∃ w1, step w (Event.pollResult (PollRead.ok data)) = some w1
      ∧ w1.dom.downloadsHidden = false
      ∧ w1.dom.dlSvg.hidden = false
      ∧ w1.dom.dlPdf.hidden = false
      ∧ w1.dom.dlSvg.href = api (API_BASE content) ("/download/" ++ a)
      ∧ w1.dom.dlPdf.href = api (API_BASE content) ("/download/" ++ b)
      ∧ w1.dom.dlPng.hidden = true := by
  have hstep := step_pollResult w (PollRead.ok data) hpoll
  have h := read_determines_ui content page evs w _ data hrun hstep
  have hsvg : fileId data.files Files.svg = some a := by simp [fileId, hfiles, ha]
  have hpng : fileId data.files Files.png = none := by simp [fileId, hfiles]
  have hpdf : fileId data.files Files.pdf = some b := by simp [fileId, hfiles, hb]
  obtain ⟨_, _, _, _, _, h5, h6, h7, h8, h9, _, h11⟩ := h
  refine ⟨_, hstep, ?_, h6.trans hpage, ?_, h9 hdone a hsvg, h11 hdone b hpdf, ?_⟩
  · rw [h5, hdone]
    rfl
  · rw [h8, hdone, hpdf]
    rfl
  · rw [h7, hdone, hpng]
    rfl

/-! ## What the interface shows -/

theorem failureLines_cons (e : Event) (es : List Event) :
    failureLines (e :: es) = failureLines [e] ++ failureLines es := by
  cases e with
  | pollResult r => cases r <;> simp [failureLines]
  | _ => simp [failureLines]

theorem noSubmission_cons (w w1 : World) (e : Event) (es : List Event)
    (h : noSubmission w (e :: es) = true) (hstep : step w e = some w1) :
    e.submits w = false ∧ noSubmission w1 es = true := by
  simp only [noSubmission, hstep, Bool.and_eq_true, Bool.not_eq_true'] at h
  exact h

theorem click_not_submits (w : World) (hidle : ¬ w.dom.startDisabled = true)
    (h : Event.click.submits w = false) : onClick w = { w with
      alerts := w.alerts ++ ["Please select a file"] } := by
  have hf : w.dom.files = [] := by
    cases hfs : w.dom.files with
    | nil => rfl
    | cons x xs => simp [Event.submits, hidle, hfs] at h
  simp [onClick, hf]

theorem step_idle (w w1 : World) (e : Event) (h : step w e = some w1)
    (hsub : e.submits w = false)
    (hidle : w.uploads = 0 ∧ w.polls = 0 ∧ w.timers = []) :
    (w1.uploads = 0 ∧ w1.polls = 0 ∧ w1.timers = []) ∧ w1.ui = w.ui := by
  obtain ⟨hu, hp, ht⟩ := hidle
  cases e with
  | click =>
    by_cases hb : w.dom.startDisabled = true
    · simp [step, hb] at h
    · simp only [step, hb] at h
      cases h
      rw [click_not_submits w hb hsub]
      exact ⟨⟨hu, hp, ht⟩, rfl⟩
  | selectFiles files =>
    simp only [step] at h
    cases h
    exact ⟨⟨hu, hp, ht⟩, rfl⟩
  | setControls q x y c =>
    simp only [step] at h
    cases h
    exact ⟨⟨hu, hp, ht⟩, rfl⟩
  | uploadResult r => simp [step, hu] at h
  | pollResult r => simp [step, hp] at h
  | timerFire delay => simp [step, ht] at h

theorem exec_idle (evs : List Event) (w w1 : World) (h : exec w evs = some w1)
    (hsub : noSubmission w evs = true)
    (hidle : w.uploads = 0 ∧ w.polls = 0 ∧ w.timers = []) : w1.ui = w.ui := by
  induction evs generalizing w with
  | nil =>
    simp only [exec] at h
    cases h
    rfl
  | cons e es ih =>
    obtain ⟨w2, h1, h2⟩ := exec_cons w e es w1 h
    obtain ⟨hs1, hs2⟩ := noSubmission_cons w w2 e es hsub h1
    obtain ⟨hidle2, hui⟩ := step_idle w w2 e h1 hs1 hidle
    exact (ih w2 h2 hs2 hidle2).trans hui

theorem step_quiet (w w1 : World) (e : Event) (h : step w e = some w1)
    (hsub : e.submits w = false) (hread : e.isRead = false) (hu : w.uploads = 0) :
    w1.uploads = 0 ∧ w1.ui = { w.ui with log := w.ui.log ++ failureLines [e] } := by
  cases e with
  | click =>
    by_cases hb : w.dom.startDisabled = true
    · simp [step, hb] at h
    · simp only [step, hb] at h
      cases h
      rw [click_not_submits w hb hsub]
      exact ⟨hu, by simp [World.ui, failureLines]⟩
  | selectFiles files =>
    simp only [step] at h
    cases h
    exact ⟨hu, by simp [World.ui, failureLines]⟩
  | setControls q x y c =>
    simp only [step] at h
    cases h
    exact ⟨hu, by simp [World.ui, failureLines]⟩
  | uploadResult r => simp [step, hu] at h
  | pollResult r =>
    by_cases hp : 0 < w.polls
    · rw [step_pollResult w r hp] at h
      cases h
      cases r with
      | ok data => simp [Event.isRead] at hread
      | networkError e => exact ⟨hu, by simp [World.ui, failureLines, pollResume, appendLog]⟩
      | notJson e => exact ⟨hu, by simp [World.ui, failureLines, pollResume, appendLog]⟩
    · simp [step, hp] at h
  | timerFire delay =>
    by_cases hm : delay ∈ w.timers
    · simp only [step, hm] at h
      cases h
      exact ⟨hu, by simp [World.ui, failureLines, poll]⟩
    · simp [step, hm] at h

theorem exec_quiet (evs : List Event) (w w1 : World) (h : exec w evs = some w1)
    (hsub : noSubmission w evs = true) (hread : ∀ e ∈ evs, e.isRead = false)
    (hu : w.uploads = 0) :
    w1.ui = { w.ui with log := w.ui.log ++ failureLines evs } := by
  induction evs generalizing w with
  | nil =>
    simp only [exec] at h
    cases h
    simp [failureLines]
  | cons e es ih =>
    obtain ⟨w2, h1, h2⟩ := exec_cons w e es w1 h
    obtain ⟨hs1, hs2⟩ := noSubmission_cons w w2 e es hsub h1
    obtain ⟨hu2, hui⟩ := step_quiet w w2 e h1 hs1 (hread e (List.mem_cons_self _ _)) hu
    rw [ih w2 h2 hs2 (fun x hx => hread x (List.mem_cons_of_mem _ hx)) hu2, hui,
      failureLines_cons e es]
    simp [List.append_assoc]

/-- C10, as the code has it. On any page and for any configured origin: in every state
reached from the fresh load before any submission, the interface is the one the page
was served with; and in every state reached after a successful read of `data` by
events among which there is no submission and no further successful read, the busy
flag, the bar's label, the bar's width when the percent is not negative, the
visibility of the panel and of each download link, and, for a done snapshot, the
target of every link whose kind the snapshot names, are the values fixed by `data`,
the configured origin and the served visibility of the vector link, and the log holds
the snapshot's logs followed by one line for each failed read since. -/
theorem ui_determined (content : Option String) (page : Dom) :
    (∀ (evs : List Event) (w : World), exec (load content page) evs = some w →
        noSubmission (load content page) evs = true → w.ui = (load content page).ui)
    ∧ ∀ (evs later : List Event) (w0 w : World) (data : Snapshot),
        exec (load content page) (evs ++ [Event.pollResult (PollRead.ok data)]) = some w0 →
        exec w0 later = some w →
        noSubmission w0 later = true →
        (∀ e ∈ later, e.isRead = false) →
        w.ui.busy = !data.done
          ∧ (0 ≤ data.percent.val → w.ui.barWidth = data.percent.text ++ "%")
          ∧ w.ui.barText = data.percent.text ++ "%"
          ∧ w.ui.log = data.logs.getD [] ++ failureLines later
          ∧ w.ui.downloadsHidden = !data.done
          ∧ w.ui.dlSvg.hidden = page.dlSvg.hidden
          ∧ w.ui.dlPng.hidden = !(data.done && (fileId data.files Files.png).isSome)
          ∧ w.ui.dlPdf.hidden = !(data.done && (fileId data.files Files.pdf).isSome)
          ∧ (data.done = true → ∀ id, fileId data.files Files.svg = some id →
              w.ui.dlSvg.href = api (API_BASE content) ("/download/" ++ id))
          ∧ (data.done = true → ∀ id, fileId data.files Files.png = some id →
              w.ui.dlPng.href = api (API_BASE content) ("/download/" ++ id))
          ∧ (data.done = true → ∀ id, fileId data.files Files.pdf = some id →
              w.ui.dlPdf.href = api (API_BASE content) ("/download/" ++ id)) := by
  refine ⟨?_, ?_⟩
  · intro evs w hrun hsub
    exact exec_idle evs _ w hrun hsub ⟨rfl, rfl, rfl⟩
  · intro evs later w0 w data hrun hlater hsub hread
    rw [exec_append] at hrun
    cases hpre : exec (load content page) evs with
    | none => simp [hpre] at hrun
    | some wp =>
      rw [hpre, Option.some_bind] at hrun
      obtain ⟨w2, h1, h2⟩ := exec_cons wp _ [] w0 hrun
      simp only [exec] at h2
      cases h2
      obtain ⟨hu, a1, a2, a3, a4, a5, a6, a7, a8, a9, a10, a11⟩ :=
        read_determines_ui content page evs wp w0 data hpre h1
      have hui := exec_quiet later w0 w hlater hsub hread hu
      rw [hui]
      simp only [World.ui]
      exact ⟨a1, a2, a3, by rw [a4], a5, a6, a7, a8, a9, a10, a11⟩

/-! ## The theorems at concrete inputs -/

/-- C2 on the sample page with no file chosen: the click only adds the alert. -/
theorem click_without_file_witness :
    (load none samplePage).dom.startDisabled = false
      ∧ (load none samplePage).dom.files = []
      ∧ step (load none samplePage) Event.click
          = some { load none samplePage with alerts := ["Please select a file"] } :=
  ⟨rfl, rfl, (click_without_file (load none samplePage) rfl rfl).1⟩

/-- C3 on the sample page: after the click, the accepted upload, a read that is not
done, a failed read, timers and user input, the button is still busy. -/
theorem busy_until_done_witness :
    ∃ w1, exec sampleIdle (Event.click :: sampleBusyEvents) = some w1
      ∧ w1.dom.startDisabled = true := by
  obtain ⟨w1, h⟩ := Option.isSome_iff_exists.1
    (by decide : (exec sampleIdle (Event.click :: sampleBusyEvents)).isSome = true)
  exact ⟨w1, h, busy_until_done sampleIdle w1 "logo.png" [] sampleBusyEvents rfl rfl
    (by decide) h⟩

/-- C4, as the code has it, on the sample page: two reads at 50 percent and a done
read at 100 percent leave the bar at `100%` and the log with the three lines of the
last snapshot. -/
theorem final_render_witness :
    ∃ w1, exec samplePolling (readEvents ([sampleRunning, sampleRunning] ++ [sampleDone]))
        = some w1
      ∧ w1.dom.barWidth = "100%" ∧ w1.dom.barText = "100%"
      ∧ w1.dom.log = ["start", "tracing", "done"] := by
  obtain ⟨w1, hrun, hwidth, htext, hlog⟩ :=
    (final_render samplePolling [sampleRunning, sampleRunning] sampleDone).1
      (by decide) (by decide)
  exact ⟨w1, hrun, hwidth (by decide), htext, hlog⟩

/-- C4 fails as stated for a percent below zero. On the sample page, a job reads the
percents -7 and then -5 with `done` set: the label is `-5%`, but the width is still
the `0%` of the reset, since the style setter ignores a negative width. -/
theorem negative_percent_keeps_width :
    (exec (load none samplePageWithFile)
        ([Event.click, Event.uploadResult (UploadResult.response 200)]
          ++ readEvents ([sampleBelowZero] ++ [sampleBelowZeroDone]))).map
        (fun w => (w.dom.barWidth, w.dom.barText, w.dom.log))
      = some ("0%", "-5%", ["start", "done"]) := by
  decide

/-- C5 on the sample page with origin `https://api.example.com/`: the snapshot with
`a.svg` and `b.pdf` gives the two targets under the origin, the vector and document
links shown, the raster link hidden. -/
theorem completion_links_witness :
    ∃ w1, step samplePolling (Event.pollResult (PollRead.ok sampleDone)) = some w1
      ∧ w1.dom.downloadsHidden = false
      ∧ w1.dom.dlSvg.hidden = false
      ∧ w1.dom.dlPdf.hidden = false
      ∧ w1.dom.dlSvg.href = "https://api.example.com/download/a.svg"
      ∧ w1.dom.dlPdf.href = "https://api.example.com/download/b.pdf"
      ∧ w1.dom.dlPng.hidden = true :=
  completion_links (some "https://api.example.com/") samplePageWithFile
    [Event.click, Event.uploadResult (UploadResult.response 200)] samplePolling sampleDone
    "a.svg" "b.pdf" rfl (by decide) (by decide) rfl rfl (by decide) (by decide)

/-- C6 on the sample page: a rejected progress request adds one line after the two
lines of the snapshot read before and schedules the 800 ms poll. -/
theorem failed_poll_read_witness :
    ∃ w1, step sampleSecondPoll (Event.pollResult (PollRead.networkError sampleError))
        = some w1
      ∧ w1.dom.log = ["start", "tracing"] ++ ["Progress error: " ++ sampleError.describe]
      ∧ w1.timers = [] ++ [800]
      ∧ w1.polls = 1 - 1
      ∧ w1.requests = sampleSecondPoll.requests
      ∧ w1.dom.startDisabled = true
      ∧ w1.dom.downloadsHidden = true
      ∧ w1.dom.dlSvg.hidden = false
      ∧ w1.dom.dlPng.hidden = true
      ∧ w1.dom.dlPdf.hidden = true :=
  failed_poll_read sampleSecondPoll (PollRead.networkError sampleError) sampleError
    (Or.inl rfl) (by decide)

/-- C7 on the sample page: an upload answered with status 500 leaves one error line,
the button released and no poll. -/
theorem failed_upload_witness :
    ∃ w1 w2 msg,
      step sampleIdle Event.click = some w1
        ∧ step w1 (Event.uploadResult (UploadResult.response 500)) = some w2
        ∧ w1.dom.log = [] ∧ w1.dom.startDisabled = true
        ∧ w2.dom.log = ["Error: " ++ msg]
        ∧ w2.dom.startDisabled = false
        ∧ w2.polls = 0 ∧ w2.timers = [] ∧ w2.uploads = 0
        ∧ w2.requests = []
            ++ [Request.upload (api sampleIdle.base "/upload") (uploadForm w1.dom "logo.png")] :=
  failed_upload sampleIdle "logo.png" [] (UploadResult.response 500) rfl rfl (by decide)

/-- C8 on the sample page: a read that is not done schedules the 500 ms poll. -/
theorem successful_poll_read_witness :
    ∃ w1, step samplePolling (Event.pollResult (PollRead.ok sampleRunning)) = some w1
      ∧ w1.timers = [500] ∧ w1.dom.startDisabled = true := by
  obtain ⟨w1, h1, _, _, h4, _⟩ :=
    (successful_poll_read samplePolling sampleRunning (by decide)).1
  exact ⟨w1, h1, (h4 rfl).1, (h4 rfl).2⟩

/-- C9 on the sample page: at the end of a run with an accepted upload, a read that is
not done and a failed read, at most one poll is outstanding and it keeps the button
busy. -/
theorem single_poll_chain_witness :
    ∃ w, exec sampleIdle (Event.click :: sampleBusyEvents) = some w
      ∧ w.pollsPending ≤ 1 ∧ (0 < w.pollsPending → w.dom.startDisabled = true) := by
  obtain ⟨w, h⟩ := Option.isSome_iff_exists.1
    (by decide : (exec sampleIdle (Event.click :: sampleBusyEvents)).isSome = true)
  exact ⟨w, h, single_poll_chain (some "https://api.example.com/") samplePageWithFile
    (Event.click :: sampleBusyEvents) w h⟩

/-- C10, as the code has it, on the sample page. With no file chosen, a click and user
input leave the interface as served. And after a job has read `sampleRunning`, user
input, the timers and a failed read leave the button busy and the bar at `50%`, with
the failed read's line after the snapshot's two. -/
theorem ui_determined_witness :
    (∃ w, exec (load none samplePage) sampleIdleEvents = some w
      ∧ w.ui = (load none samplePage).ui)
    ∧ ∃ w, exec sampleAfterRead sampleQuietEvents = some w
      ∧ w.ui.busy = true
      ∧ w.ui.barWidth = "50%"
      ∧ w.ui.barText = "50%"
      ∧ w.ui.log = ["start", "tracing", "Progress error: Failed to fetch"]
      ∧ w.ui.downloadsHidden = true := by
  obtain ⟨wi, hi⟩ := Option.isSome_iff_exists.1
    (by decide : (exec (load none samplePage) sampleIdleEvents).isSome = true)
  obtain ⟨w, hw⟩ := Option.isSome_iff_exists.1
    (by decide : (exec sampleAfterRead sampleQuietEvents).isSome = true)
  have hpre : exec (load (some "https://api.example.com/") samplePageWithFile)
      ([Event.click, Event.uploadResult (UploadResult.response 200)]
        ++ [Event.pollResult (PollRead.ok sampleRunning)]) = some sampleAfterRead := by
    decide
  obtain ⟨h1, h2, h3, h4, h5, _⟩ :=
    (ui_determined (some "https://api.example.com/") samplePageWithFile).2 _
      sampleQuietEvents sampleAfterRead w sampleRunning hpre hw (by decide) (by decide)
  exact ⟨⟨wi, hi, (ui_determined none samplePage).1 sampleIdleEvents wi hi (by decide)⟩,
    w, hw, h1, h2 (by decide), h3, h4, h5⟩

/-- C10 fails as stated. On the sample page with a file chosen, each pair of runs has
the same most recent snapshot and shows a different interface. A job that ends with a
done snapshot naming no file shows the vector link with the target `#`, and with the
target of an earlier job's file when that job came first. After a read of a running
snapshot the log has its two lines, and one more after a failed read. After a done
read the button is free and the bar full, and after one more click the button is busy
and the bar reset. After a read of a percent below zero the width is the `0%` of the
reset, and `50%` when a read at 50 percent came before. -/
theorem ui_not_function_of_snapshot :
    (lastSnapshot (jobEvents sampleDoneNoFiles)
        = lastSnapshot (jobEvents sampleDone ++ jobEvents sampleDoneNoFiles)
      ∧ (exec (load none samplePageWithFile) (jobEvents sampleDoneNoFiles)).map
          (fun w => (w.ui.downloadsHidden, w.ui.dlSvg))
        = some (false, { hidden := false, href := "#" })
      ∧ (exec (load none samplePageWithFile)
          (jobEvents sampleDone ++ jobEvents sampleDoneNoFiles)).map
          (fun w => (w.ui.downloadsHidden, w.ui.dlSvg))
        = some (false, { hidden := false, href := "/download/a.svg" }))
    ∧ (lastSnapshot (jobEvents sampleRunning) = lastSnapshot failedReadEvents
      ∧ (exec (load none samplePageWithFile) (jobEvents sampleRunning)).map
          (fun w => w.ui.log)
        = some ["start", "tracing"]
      ∧ (exec (load none samplePageWithFile) failedReadEvents).map (fun w => w.ui.log)
        = some ["start", "tracing", "Progress error: Failed to fetch"])
    ∧ (lastSnapshot (jobEvents sampleDone) = lastSnapshot (jobEvents sampleDone ++ [Event.click])
      ∧ (exec (load none samplePageWithFile) (jobEvents sampleDone)).map
          (fun w => (w.ui.busy, w.ui.barWidth))
        = some (false, "100%")
      ∧ (exec (load none samplePageWithFile) (jobEvents sampleDone ++ [Event.click])).map
          (fun w => (w.ui.busy, w.ui.barWidth))
        = some (true, "0%"))
    ∧ (lastSnapshot (jobEvents sampleBelowZero) = lastSnapshot belowZeroAfterRunning
      ∧ (exec (load none samplePageWithFile) (jobEvents sampleBelowZero)).map
          (fun w => (w.ui.barWidth, w.ui.barText))
        = some ("0%", "-7%")
      ∧ (exec (load none samplePageWithFile) belowZeroAfterRunning).map
          (fun w => (w.ui.barWidth, w.ui.barText))
        = some ("50%", "-7%")) := by
  decide

end Vectorizer
